import Mathlib

/-!
Shallow embedding of the stjregistry Streamlit pages
(`src/pages/1_Initiatives.py`, `src/pages/3_Membership_Directory.py`,
`src/pages/4_Speaker_Directory.py`, `src/app.py`).

Rows of the pandas DataFrames are modelled as association lists from column
name to `Value`; `Value.na` stands for any of the missing markers
(Python `None`, pandas `NaN`, `NaT`), which `pd.isna` identifies and which
the save pipelines convert to the wire null.  Calendar dates (`datetime.date`
and the date part of `pd.Timestamp`) are modelled by `CalDate`.
-/

namespace StjRegistry

/-- Calendar date, modelling `datetime.date` (year, month, day). -/
structure CalDate where
  y : Nat
  m : Nat
  d : Nat
deriving DecidableEq, Repr

/-- Left-pad the decimal representation of `n` with zeros to width `w`,
as Python does when printing date components. -/
def padNum (n w : Nat) : String :=
  let s := toString n
  String.mk (List.replicate (w - s.length) '0') ++ s

/-- Model of `datetime.date.isoformat`: `YYYY-MM-DD` with zero-padded fields. -/
def CalDate.isoformat (dt : CalDate) : String :=
  padNum dt.y 4 ++ "-" ++ padNum dt.m 2 ++ "-" ++ padNum dt.d 2

/-- Cell value of a DataFrame as the pages use them: the missing marker
(`None` / `NaN` / `NaT`), a string, or a calendar date (a `datetime.date`,
or the date carried by a `pd.Timestamp` on the speakers page). -/
inductive Value where
  | na : Value
  | str : String → Value
  | date : CalDate → Value
deriving DecidableEq, Repr

/-- Model of `pd.isna` on our value universe. -/
def isNa : Value → Bool
  | .na => true
  | _ => false

/-- Python truthiness of a cell value: `None` is falsy, a string is truthy
iff non-empty, a date object is always truthy. -/
def pyTruthy : Value → Bool
  | .na => false
  | .str s => s ≠ ""
  | .date _ => true

/-- Model of Python `str()` applied to a cell value (as in `str(raw_id)`). -/
def strOfValue : Value → String
  | .na => "None"
  | .str s => s
  | .date dt => dt.isoformat

/-- Whitespace characters Python `str.strip` removes (the ones that occur
in this data: space, tab, newline, carriage return). -/
def isPySpace (c : Char) : Bool :=
  c == ' ' || c == '\t' || c == '\n' || c == '\r'

/-- Model of Python `str.strip()`: drop whitespace from both ends. -/
def pyStrip (s : String) : String :=
  String.mk (((s.data.dropWhile isPySpace).reverse.dropWhile isPySpace).reverse)

/-- Model of Python `str.lower()` on the ASCII column names used here. -/
def pyLower (s : String) : String :=
  String.mk (s.data.map Char.toLower)

/-- Model of Python `str.replace(a, b)` for one-character patterns, the only
form the pages use. -/
def pyReplaceChar (a b : Char) (s : String) : String :=
  String.mk (s.data.map fun c => if c == a then b else c)

/-- A DataFrame row as carried through the save pipelines: an ordered
association list from column name to value. -/
abbrev Row := List (String × Value)

/-- Look a column up in a row, as `r.get(k)` on the record dict. -/
def rget (r : Row) (k : String) : Option Value :=
  (r.find? fun kv => kv.1 == k).map (·.2)

/-- Model of `r.pop(k, None)` on a record dict: the row without column `k`. -/
def rpop (r : Row) (k : String) : Row :=
  r.filter fun kv => kv.1 != k

/-- Model of the defensive column-name normalization
`c.strip().lower().replace(" ", "_").replace("-", "_")`. -/
def normName (s : String) : String :=
  pyReplaceChar '-' '_' (pyReplaceChar ' ' '_' (pyLower (pyStrip s)))

/-- Rename every column of a row with `normName` (the
`work.columns = [...]` step). -/
def renameCols (r : Row) : Row :=
  r.map fun kv => (normName kv.1, kv.2)

/-- A row every one of whose cells is missing, the rows that
`work.dropna(how="all")` removes. -/
def rowAllNa (r : Row) : Bool :=
  r.all fun kv => isNa kv.2

/-- Model of `work.dropna(how="all")`: keep the rows with at least one
non-missing cell. -/
def dropBlank (rs : List Row) : List Row :=
  rs.filter fun r => !(rowAllNa r)

/-- Model of `work[[c for c in work.columns if c in allowed_cols]]`
applied rowwise. -/
def restrictCols (allowed : List String) (r : Row) : Row :=
  r.filter fun kv => allowed.contains kv.1

/-- Value normalization loop of the initiatives page
(`if pd.isna(v): r[k] = None elif isinstance(v, dt.date): r[k] = v.isoformat()`). -/
def normValInit : Value → Value
  | .na => .na
  | .date dt => .str dt.isoformat
  | .str s => .str s

/-- Value normalization loop of the members page: `NaN` becomes `None`,
everything else is passed through untouched (no date branch exists there). -/
def normValMem : Value → Value
  | .na => .na
  | v => v

/-- Value normalization loop of the speakers page
(`if v is None: continue`, `pd.isna` to `None`,
`isinstance(v, pd.Timestamp)` to `v.date().isoformat()`). -/
def normValSpeak : Value → Value
  | .na => .na
  | .date dt => .str dt.isoformat
  | .str s => .str s

/-- Apply a value normalization to every cell of a record. -/
def normRow (f : Value → Value) (r : Row) : Row :=
  r.map fun kv => (kv.1, f kv.2)

/-- Identity test of the initiatives partition:
`if raw_id and str(raw_id).strip():` on `raw_id = r.get("id")`. -/
def idOkTrim (v : Option Value) : Bool :=
  match v with
  | some w => pyTruthy w && pyStrip (strOfValue w) ≠ ""
  | none => false

/-- Identity test of the members and speakers partitions:
`if r.get("id"):` — bare Python truthiness, no trimming. -/
def idOkTruthy (v : Option Value) : Bool :=
  match v with
  | some w => pyTruthy w
  | none => false

/-- The save partition loop shared by all three pages: a record passing the
identity test is appended to `to_update`; otherwise `id` is popped and the
record is appended to `to_insert`. -/
def partitionRecords (ok : Option Value → Bool) : List Row → List Row × List Row
  | [] => ([], [])
  | r :: rs =>
      let p := partitionRecords ok rs
      if ok (rget r "id") then (r :: p.1, p.2) else (p.1, rpop r "id" :: p.2)

/-- The `allowed_cols` set of the initiatives page. -/
def initAllowed : List String :=
  ["id", "initiative_name", "region", "status", "lead_steward",
   "last_check_in", "next_check_in", "notes"]

/-- The `allowed_cols` set of the members page. -/
def memAllowed : List String :=
  ["id", "name", "organization", "role", "email", "phone", "region",
   "member_type", "expertise_areas", "status", "notes"]

/-- The `allowed_cols` set of the speakers page. -/
def speakAllowed : List String :=
  ["id", "name", "organization", "title", "email", "phone", "bio", "topics",
   "availability", "speaking_fee", "region", "website", "linkedin",
   "last_spoke_date", "notes"]

/-- The `records` stage of the initiatives save: normalize column names,
drop all-blank rows, convert `NaN` to `None` (identity here), restrict to
`allowed_cols`, then run the value normalization loop. -/
def initRecords (snapshot : List Row) : List Row :=
  ((dropBlank (snapshot.map renameCols)).map (restrictCols initAllowed)).map
    (normRow normValInit)

/-- Save pipeline of the initiatives page, from the edited snapshot to the
`(to_update, to_insert)` batches, with the trimming identity test. -/
def initSave (snapshot : List Row) : List Row × List Row :=
  partitionRecords idOkTrim (initRecords snapshot)

/-- The `records` stage of the members save: `where(pd.notnull, None)`
(identity here), normalize column names, drop all-blank rows, restrict to
`allowed_cols`, then run the value normalization loop. -/
def memRecords (snapshot : List Row) : List Row :=
  ((dropBlank (snapshot.map renameCols)).map (restrictCols memAllowed)).map
    (normRow normValMem)

/-- Save pipeline of the members page, with the bare truthiness test. -/
def memSave (snapshot : List Row) : List Row × List Row :=
  partitionRecords idOkTruthy (memRecords snapshot)

/-- The `records` stage of the speakers save: like the members page, plus
the timestamp-to-ISO-string branch in value normalization. -/
def speakRecords (snapshot : List Row) : List Row :=
  ((dropBlank (snapshot.map renameCols)).map (restrictCols speakAllowed)).map
    (normRow normValSpeak)

/-- Save pipeline of the speakers page, with the bare truthiness test. -/
def speakSave (snapshot : List Row) : List Row × List Row :=
  partitionRecords idOkTruthy (speakRecords snapshot)

/-- A row carrying a present, non-missing identity value. -/
def idPresent (r : Row) : Bool :=
  match rget r "id" with
  | some v => !(isNa v)
  | none => false

/-! ### Table loading (`load_initiatives`, `load_members`, `load_speakers`
and the `expected_cols` fill that follows each load). -/

/-- In-memory DataFrame: a column list plus rows keyed by those columns. -/
structure Frame where
  cols : List String
  rows : List Row
deriving DecidableEq, Repr

/-- Fold new column names into an accumulated column list, keeping first
appearance order, as `pd.DataFrame(list_of_dicts)` determines columns. -/
def addColNames (acc : List String) (ks : List String) : List String :=
  ks.foldl (fun a k => if a.contains k then a else a ++ [k]) acc

/-- Column list of `pd.DataFrame(records)`: union of the record keys in
first-appearance order. -/
def collectCols (rs : List Row) : List String :=
  rs.foldl (fun a r => addColNames a (r.map (·.1))) []

/-- Model of `pd.DataFrame(records)`: every row rebuilt over the collected
columns, keys the record lacks filled with the missing marker. -/
def frameOfRecords (rs : List Row) : Frame :=
  let cs := collectCols rs
  { cols := cs
    rows := rs.map fun r => cs.map fun c => (c, (rget r c).getD .na) }

/-- Split a character list on a separator character. -/
def splitOnChar (sep : Char) (cs : List Char) : List (List Char) :=
  cs.foldr
    (fun c acc =>
      match acc with
      | [] => [[c]]
      | g :: gs => if c == sep then [] :: g :: gs else (c :: g) :: gs)
    [[]]

/-- Numeric value of a decimal digit character. -/
def digitVal (c : Char) : Option Nat :=
  if '0' ≤ c ∧ c ≤ '9' then some (c.toNat - '0'.toNat) else none

/-- Parse a non-empty all-digit character list as a natural number. -/
def parseNatDigits (cs : List Char) : Option Nat :=
  match cs with
  | [] => none
  | _ =>
      cs.foldl
        (fun acc c =>
          match acc, digitVal c with
          | some n, some d => some (n * 10 + d)
          | _, _ => none)
        (some 0)

/-- Parse a wire date string of the form `YYYY-MM-DD`; anything else is the
missing marker.  Models `pd.to_datetime(col, errors="coerce")` for the ISO
calendar-date strings the store serves (unparsable input becomes `NaT`). -/
def parseIsoDate (s : String) : Option CalDate :=
  match splitOnChar '-' s.data with
  | [ys, ms, ds] =>
      match parseNatDigits ys, parseNatDigits ms, parseNatDigits ds with
      | some y, some m, some d =>
          if 1 ≤ m ∧ m ≤ 12 ∧ 1 ≤ d ∧ d ≤ 31 then some ⟨y, m, d⟩ else none
      | _, _, _ => none
  | _ => none

/-- Coerce one cell to a date as `pd.to_datetime(..., errors="coerce")`:
strings parse or become missing, dates stay, missing stays missing. -/
def coerceDate : Value → Value
  | .str s => match parseIsoDate s with
      | some dt => .date dt
      | none => .na
  | .na => .na
  | .date dt => .date dt

/-- Apply `coerceDate` to column `col` of a frame when that column exists
(the `if col in df.columns` guard of the load functions). -/
def coerceDateCol (col : String) (f : Frame) : Frame :=
  if f.cols.contains col then
    { f with
      rows := f.rows.map fun r =>
        r.map fun kv => if kv.1 == col then (kv.1, coerceDate kv.2) else kv }
  else f

/-- The `expected_cols` list of the initiatives page. -/
def initExpected : List String :=
  ["id", "initiative_name", "region", "status", "lead_steward",
   "last_check_in", "next_check_in", "notes", "updated_at"]

/-- The `expected_cols` list of the members page. -/
def memExpected : List String :=
  ["id", "name", "organization", "role", "email", "phone", "region",
   "member_type", "expertise_areas", "status", "notes", "updated_at"]

/-- The `expected_cols` list of the speakers page. -/
def speakExpected : List String :=
  ["id", "name", "organization", "title", "email", "phone", "bio", "topics",
   "availability", "speaking_fee", "region", "website", "linkedin",
   "last_spoke_date", "notes", "updated_at"]

/-- The fill loop after each load: for each expected column missing from the
frame, append it with every cell set to the missing marker
(`df_all[c] = None`, or `pd.NaT` for the speakers date column — both are
the missing marker here). -/
def fillExpected (expected : List String) (f : Frame) : Frame :=
  expected.foldl
    (fun fr c =>
      if fr.cols.contains c then fr
      else { cols := fr.cols ++ [c], rows := fr.rows.map (· ++ [(c, Value.na)]) })
    f

/-- Body of `load_initiatives` given the `resp.data` payload (`None` models
a response with a null data field; `resp.data or []` turns it into `[]`):
build the frame and coerce the two date columns. -/
def loadInitiativesFrame (data : Option (List Row)) : Frame :=
  let df := frameOfRecords (data.getD [])
  coerceDateCol "next_check_in" (coerceDateCol "last_check_in" df)

/-- Body of `load_members` given the `resp.data` payload: just the frame. -/
def loadMembersFrame (data : Option (List Row)) : Frame :=
  frameOfRecords (data.getD [])

/-- Body of `load_speakers` given the `resp.data` payload: the frame with
`last_spoke_date` coerced. -/
def loadSpeakersFrame (data : Option (List Row)) : Frame :=
  coerceDateCol "last_spoke_date" (frameOfRecords (data.getD []))

/-- Canonical table of the initiatives page: the `if df_all.empty` branch
replaces an empty frame by one with exactly `expected_cols`; otherwise the
fill loop adds the missing expected columns. -/
def initCanonical (data : Option (List Row)) : Frame :=
  let df := loadInitiativesFrame data
  if df.rows.isEmpty then { cols := initExpected, rows := [] }
  else fillExpected initExpected df

/-- Canonical table of the members page. -/
def memCanonical (data : Option (List Row)) : Frame :=
  let df := loadMembersFrame data
  if df.rows.isEmpty then { cols := memExpected, rows := [] }
  else fillExpected memExpected df

/-- Canonical table of the speakers page. -/
def speakCanonical (data : Option (List Row)) : Frame :=
  let df := loadSpeakersFrame data
  if df.rows.isEmpty then { cols := speakExpected, rows := [] }
  else fillExpected speakExpected df

/-- One whole load cycle at the level the page sees: a raised transport
error propagates out of the uncaught `execute()` call (there is no
`try`/`except` around any load), a successful response is turned into the
canonical table. -/
def initLoadCycle (resp : Except String (Option (List Row))) :
    Except String Frame :=
  match resp with
  | .error e => .error e
  | .ok data => .ok (initCanonical data)

/-- Load cycle of the members page. -/
def memLoadCycle (resp : Except String (Option (List Row))) :
    Except String Frame :=
  match resp with
  | .error e => .error e
  | .ok data => .ok (memCanonical data)

/-- Python truthiness of `st.secrets.get(...)`: absent or empty is falsy. -/
def secretTruthy : Option String → Bool
  | none => false
  | some s => s ≠ ""

/-- The credentials gate at the top of every page:
`if not SUPABASE_URL or not SUPABASE_ANON_KEY: st.error(...); st.stop()`.
Returns `true` when the page halts before any load. -/
def credsGateHalts (url key : Option String) : Bool :=
  !(secretTruthy url) || !(secretTruthy key)

/-! ### Dashboard metrics of the initiatives page
(`overdue_df` / `due_soon_df`). -/

/-- Days since the civil epoch 1970-01-01 (the standard civil-calendar
conversion), used to compare dates and add day offsets the way Python
`datetime.date` ordering and `timedelta` arithmetic behave. -/
def toRataDie (dt : CalDate) : Int :=
  let y : Int := if dt.m ≤ 2 then (dt.y : Int) - 1 else (dt.y : Int)
  let era : Int := (if y ≥ 0 then y else y - 399) / 400
  let yoe : Int := y - era * 400
  let mp : Int := ((dt.m : Int) + 9) % 12
  let doy : Int := (153 * mp + 2) / 5 + (dt.d : Int) - 1
  let doe : Int := yoe * 365 + yoe / 4 - yoe / 100 + doy
  era * 146097 + doe - 719468

/-- Inverse civil-calendar conversion, used to model
`today + dt.timedelta(days=n)`. -/
def fromRataDie (z0 : Int) : CalDate :=
  let z := z0 + 719468
  let era := (if z ≥ 0 then z else z - 146096) / 146097
  let doe := z - era * 146097
  let yoe := (doe - doe / 1460 + doe / 36524 - doe / 146096) / 365
  let y := yoe + era * 400
  let doy := doe - (365 * yoe + yoe / 4 - yoe / 100)
  let mp := (5 * doy + 2) / 153
  let d := doy - (153 * mp + 2) / 5 + 1
  let m := if mp < 10 then mp + 3 else mp - 9
  ⟨(if m ≤ 2 then y + 1 else y).toNat, m.toNat, d.toNat⟩

/-- Python `date` comparison `a < b`. -/
def dateLt (a b : CalDate) : Bool := toRataDie a < toRataDie b

/-- Python `date` comparison `a ≤ b`. -/
def dateLe (a b : CalDate) : Bool := toRataDie a ≤ toRataDie b

/-- Model of `today + dt.timedelta(days=n)`. -/
def addDays (dt : CalDate) (n : Nat) : CalDate :=
  fromRataDie (toRataDie dt + n)

/-- The dashboard's `due_window_days`. -/
def dueWindowDays : Nat := 14

/-- Membership of the row's status in `activeish_statuses`
(`df_all["status"].isin(["Active", "Proposed"])`). -/
def activeish (r : Row) : Bool :=
  match rget r "status" with
  | some (.str s) => s == "Active" || s == "Proposed"
  | _ => false

/-- The row's `next_check_in` as a date, `none` when missing
(`notna` fails). -/
def nextCheckIn (r : Row) : Option CalDate :=
  match rget r "next_check_in" with
  | some (.date dt) => some dt
  | _ => none

/-- Model of `overdue_df`: active-ish status, `next_check_in` present and
strictly before today. -/
def overdueRows (today : CalDate) (rows : List Row) : List Row :=
  rows.filter fun r =>
    activeish r &&
      (match nextCheckIn r with
       | some dt => dateLt dt today
       | none => false)

/-- Model of `due_soon_df`: active-ish status, `next_check_in` present, on
or after today and at most `due_window_days` ahead. -/
def dueSoonRows (today : CalDate) (rows : List Row) : List Row :=
  rows.filter fun r =>
    activeish r &&
      (match nextCheckIn r with
       | some dt => !(dateLt dt today) && dateLe dt (addDays today dueWindowDays)
       | none => false)

/-! ### The save button handler (effects, failure paths, cache clearing). -/

/-- Observable effects of one press of the save button. -/
inductive Eff where
  | upsertCall (tbl : String) (rows : List Row) : Eff
  | insertCall (tbl : String) (rows : List Row) : Eff
  | clearCache : Eff
  | successShown : Eff
  | errorShown : Eff
deriving DecidableEq, Repr

/-- Behavior of the external store during one save: whether the upsert call
and the insert call succeed when issued. -/
structure StoreBehavior where
  upsertOk : Bool
  insertOk : Bool
deriving DecidableEq, Repr

/-- The initiatives save handler as a trace of effects plus the editor
DataFrame after the handler ran.  The handler begins with
`work = edited_df.copy()` and never reassigns `edited_df`, so the working
table it returns is the input; the `try`/`except` wraps everything, so a
raising upsert skips the insert, the cache clear and the success message,
and a raising insert skips the cache clear and the success message. -/
def initSaveHandler (edited : List Row) (st : StoreBehavior) :
    List Eff × List Row :=
  let p := initSave edited
  let updEffs : List Eff :=
    if p.1.isEmpty then [] else [Eff.upsertCall "initiatives" p.1]
  if !p.1.isEmpty && !st.upsertOk then
    (updEffs ++ [Eff.errorShown], edited)
  else
    let insEffs : List Eff :=
      if p.2.isEmpty then [] else [Eff.insertCall "initiatives" p.2]
    if !p.2.isEmpty && !st.insertOk then
      (updEffs ++ insEffs ++ [Eff.errorShown], edited)
    else
      (updEffs ++ insEffs ++ [Eff.clearCache, Eff.successShown], edited)

/-! ### Hiding and re-attaching the identity column
(members and speakers pages). -/

/-- What the pages get back from `st.data_editor` after hiding `id`: rows
labelled by their pandas index.  A surviving pre-existing row keeps its
original label (a position below the original row count); a row added in
the editor carries a fresh label at or above the original row count. -/
abbrev EditedRows := List (Nat × Row)

/-- Model of `edited_df.insert(0, "id", row_ids)`: pandas aligns the stored
`row_ids` Series (indexed `0 .. n-1`) with the edited frame by index label,
filling labels outside the Series index with the missing marker. -/
def reattachIds (rowIds : List Value) (ed : EditedRows) : List Row :=
  ed.map fun p => ("id", rowIds.getD p.1 Value.na) :: p.2

/-! ### Helper lemmas about the pipeline stages. -/

theorem partitionRecords_fst (ok : Option Value → Bool) (rs : List Row) :
    (partitionRecords ok rs).1 = rs.filter fun r => ok (rget r "id") := by
  induction rs with
  | nil => rfl
  | cons r t ih =>
      by_cases h : ok (rget r "id") = true <;>
        simp [partitionRecords, List.filter_cons, h, ih]

theorem partitionRecords_snd (ok : Option Value → Bool) (rs : List Row) :
    (partitionRecords ok rs).2
      = (rs.filter fun r => !(ok (rget r "id"))).map fun r => rpop r "id" := by
  induction rs with
  | nil => rfl
  | cons r t ih =>
      by_cases h : ok (rget r "id") = true <;>
        simp [partitionRecords, List.filter_cons, h, ih]

theorem partitionRecords_length (ok : Option Value → Bool) (rs : List Row) :
    (partitionRecords ok rs).1.length + (partitionRecords ok rs).2.length
      = rs.length := by
  induction rs with
  | nil => rfl
  | cons r t ih =>
      by_cases h : ok (rget r "id") = true <;>
        · simp [partitionRecords, h]
          omega

theorem rowAllNa_renameCols (r : Row) :
    rowAllNa (renameCols r) = rowAllNa r := by
  simp [rowAllNa, renameCols, List.all_map]
  rfl

theorem dropBlank_map_renameCols_filter (s : List Row) :
    dropBlank ((s.filter fun r => !(rowAllNa r)).map renameCols)
      = dropBlank (s.map renameCols) := by
  induction s with
  | nil => rfl
  | cons r t ih =>
      by_cases h : rowAllNa r = true <;>
        simp [dropBlank, List.filter_cons, rowAllNa_renameCols, h, ih] at ih ⊢ <;>
        simpa [dropBlank] using ih

theorem dropBlank_length (s : List Row) :
    (dropBlank (s.map renameCols)).length
      = s.countP fun r => !(rowAllNa r) := by
  simp only [dropBlank, ← List.countP_eq_length_filter, List.countP_map]
  apply List.countP_congr
  intro r _
  simp [rowAllNa_renameCols]

theorem restrictCols_keys (allowed : List String) (r : Row) :
    ∀ kv ∈ restrictCols allowed r, kv.1 ∈ allowed := by
  intro kv h
  rw [restrictCols, List.mem_filter] at h
  simpa using h.2

theorem normRow_keys (f : Value → Value) (r : Row) :
    ∀ kv ∈ normRow f r, ∃ kv0 ∈ r, kv.1 = kv0.1 := by
  intro kv h
  rw [normRow, List.mem_map] at h
  obtain ⟨kv0, h0, he⟩ := h
  exact ⟨kv0, h0, by rw [← he]⟩

theorem rpop_subset (r : Row) (k : String) : rpop r k ⊆ r := by
  rw [rpop]
  exact List.filter_subset' _

theorem recordsStage_keys (allowed : List String) (f : Value → Value)
    (ws : List Row) (r : Row)
    (hr : r ∈ (ws.map (restrictCols allowed)).map (normRow f)) :
    ∀ kv ∈ r, kv.1 ∈ allowed := by
  intro kv hkv
  rw [List.map_map, List.mem_map] at hr
  obtain ⟨w, _, he⟩ := hr
  rw [← he] at hkv
  obtain ⟨kv0, h0, he0⟩ := normRow_keys f (restrictCols allowed w) kv hkv
  exact he0 ▸ restrictCols_keys allowed w kv0 h0

theorem partitionStage_keys (ok : Option Value → Bool) (allowed : List String)
    (f : Value → Value) (ws : List Row) (r : Row)
    (hr : r ∈ (partitionRecords ok ((ws.map (restrictCols allowed)).map (normRow f))).1 ∨
          r ∈ (partitionRecords ok ((ws.map (restrictCols allowed)).map (normRow f))).2) :
    ∀ kv ∈ r, kv.1 ∈ allowed := by
  intro kv hkv
  rcases hr with hu | hi
  · rw [partitionRecords_fst, List.mem_filter] at hu
    exact recordsStage_keys allowed f ws r hu.1 kv hkv
  · rw [partitionRecords_snd, List.mem_map] at hi
    obtain ⟨r0, h0, he⟩ := hi
    rw [List.mem_filter] at h0
    exact recordsStage_keys allowed f ws r0 h0.1 kv (rpop_subset r0 "id" (he ▸ hkv))

/-! ### Helper lemmas about rows, frames and the load fill. -/

theorem rget_cons_hit (k : String) (v : Value) (t : Row) :
    rget ((k, v) :: t) k = some v := by
  simp [rget, List.find?_cons]

theorem rget_append_cases (r s : Row) (k : String) :
    rget (r ++ s) k
      = match rget r k with
        | some v => some v
        | none => rget s k := by
  induction r with
  | nil => simp [rget]
  | cons kv t ih =>
      by_cases h : kv.1 == k <;> simp [rget, List.find?_cons, h] at ih ⊢ <;>
        simpa [rget] using ih

theorem rget_build_mem (g : String → Value) (cs : List String) (c : String)
    (h : c ∈ cs) :
    rget (cs.map fun c0 => (c0, g c0)) c = some (g c) := by
  induction cs with
  | nil => cases h
  | cons c0 t ih =>
      by_cases h0 : c0 == c
      · have he : c0 = c := by simpa using h0
        subst he
        simp [rget, List.find?_cons]
      · have ht : c ∈ t := by
          rcases List.mem_cons.mp h with he | ht
          · exact absurd (by simp [he]) h0
          · exact ht
        simpa [rget, List.find?_cons, h0] using ih ht

theorem rget_mapVal (F : String × Value → Value) (r : Row) (k : String) :
    rget (r.map fun kv => (kv.1, F kv)) k
      = (r.find? fun kv => kv.1 == k).map F := by
  induction r with
  | nil => rfl
  | cons kv t ih =>
      by_cases h : kv.1 == k <;> simp [rget, List.find?_cons, h] at ih ⊢ <;>
        simpa [rget] using ih

/-- Every row of the frame has every frame column present. -/
def frameRowsKeyed (f : Frame) : Prop :=
  ∀ r ∈ f.rows, ∀ c ∈ f.cols, (rget r c).isSome = true

theorem frameOfRecords_keyed (rs : List Row) :
    frameRowsKeyed (frameOfRecords rs) := by
  intro r hr c hc
  rw [frameOfRecords] at hr hc
  simp only [List.mem_map] at hr
  obtain ⟨r0, _, he⟩ := hr
  rw [← he, rget_build_mem (fun c0 => (rget r0 c0).getD .na) _ c hc]
  rfl

theorem coerceDateCol_cols (col : String) (f : Frame) :
    (coerceDateCol col f).cols = f.cols := by
  rw [coerceDateCol]
  split <;> rfl

theorem coerceDateCol_keyed (col : String) (f : Frame)
    (hf : frameRowsKeyed f) : frameRowsKeyed (coerceDateCol col f) := by
  intro r hr c hc
  rw [coerceDateCol_cols] at hc
  rw [coerceDateCol] at hr
  split at hr
  · simp only [List.mem_map] at hr
    obtain ⟨r0, h0, he⟩ := hr
    have := hf r0 h0 c hc
    rw [← he]
    have hrw : (r0.map fun kv => if kv.1 == col then (kv.1, coerceDate kv.2) else kv)
        = r0.map fun kv => (kv.1, if kv.1 == col then coerceDate kv.2 else kv.2) := by
      apply List.map_congr_left
      intro kv _
      by_cases h : kv.1 == col <;> simp [h]
    rw [hrw, rget_mapVal]
    unfold rget at this
    cases hfind : r0.find? fun kv => kv.1 == c <;> simp [hfind] at this ⊢
  · exact hf r hr c hc

theorem fillExpected_cols_mono (expected : List String) (f : Frame) :
    f.cols ⊆ (fillExpected expected f).cols := by
  induction expected generalizing f with
  | nil => exact fun a h => h
  | cons c t ih =>
      rw [fillExpected]
      by_cases h : f.cols.contains c = true <;> simp only [List.foldl_cons, h]
      · simpa [fillExpected] using ih (f := f)
      · simp only [Bool.false_eq_true, if_false]
        intro a ha
        exact ih _ (List.mem_append.mpr (Or.inl ha))

theorem fillExpected_cols_mem (expected : List String) (f : Frame) :
    ∀ c ∈ expected, c ∈ (fillExpected expected f).cols := by
  induction expected generalizing f with
  | nil => intro c hc; cases hc
  | cons c0 t ih =>
      intro c hc
      rw [fillExpected]
      by_cases h : f.cols.contains c0 = true <;> simp only [List.foldl_cons, h]
      · rcases List.mem_cons.mp hc with he | ht
        · subst he
          have h0 : c ∈ f.cols := by simpa using h
          simpa [fillExpected] using fillExpected_cols_mono t f h0
        · simpa [fillExpected] using ih f c ht
      · simp only [Bool.false_eq_true, if_false]
        rcases List.mem_cons.mp hc with he | ht
        · subst he
          exact fillExpected_cols_mono t _ (List.mem_append.mpr (Or.inr (by simp)))
        · exact ih _ c ht

theorem fillExpected_keyed (expected : List String) (f : Frame)
    (hf : frameRowsKeyed f) : frameRowsKeyed (fillExpected expected f) := by
  induction expected generalizing f with
  | nil => exact hf
  | cons c0 t ih =>
      rw [fillExpected]
      by_cases h : f.cols.contains c0 = true <;> simp only [List.foldl_cons, h]
      · simpa [fillExpected] using ih f hf
      · simp only [Bool.false_eq_true, if_false]
        have hkeyed : frameRowsKeyed
            ⟨f.cols ++ [c0], f.rows.map (· ++ [(c0, Value.na)])⟩ := by
          intro r hr c hc
          simp only [List.mem_map] at hr
          obtain ⟨r0, h0, he⟩ := hr
          rw [← he, rget_append_cases]
          rcases List.mem_append.mp hc with hcl | hcr
          · have := hf r0 h0 c hcl
            cases hg : rget r0 c <;> simp [hg] at this ⊢
          · have hc0 : c = c0 := by simpa using hcr
            subst hc0
            cases hg : rget r0 c <;> simp [hg, rget_cons_hit]
        simpa [fillExpected] using ih _ hkeyed

/-! ### Helper lemmas for the identity re-attachment count argument. -/

theorem countP_getD_range (p : Value → Bool) (l : List Value) :
    (List.range l.length).countP (fun i => p (l.getD i Value.na))
      = l.countP p := by
  induction l with
  | nil => rfl
  | cons a t ih =>
      rw [List.length_cons, List.range_succ_eq_map, List.countP_cons,
        List.countP_map, List.countP_cons]
      have he : ((fun i => p ((a :: t).getD i Value.na)) ∘ Nat.succ)
          = fun i => p (t.getD i Value.na) := by
        funext i
        simp [List.getD_cons_succ]
      rw [he, ih]
      simp [List.getD]

theorem nodup_length_le_of_subset {l₁ l₂ : List Nat} (hn : l₁.Nodup)
    (hs : l₁ ⊆ l₂) : l₁.length ≤ l₂.length := by
  calc l₁.length = l₁.toFinset.card := (List.toFinset_card_of_nodup hn).symm
    _ ≤ l₂.toFinset.card := by
        apply Finset.card_le_card
        intro x hx
        exact List.mem_toFinset.mpr (hs (List.mem_toFinset.mp hx))
    _ ≤ l₂.length := l₂.toFinset_card_le

/-! ### Claim theorems. -/

/-- C2: on the initiatives and members pages, after the blank-row drop every
remaining record lands in exactly one of the updates and inserts lists (the
updates list is exactly the records passing the identity test, the inserts
list exactly the others with `id` popped), so dropped + updates + inserts
equals the snapshot row count. -/
theorem c2_partition_total_disjoint (snapshot : List Row) :
    (snapshot.countP rowAllNa + (initSave snapshot).1.length
        + (initSave snapshot).2.length = snapshot.length) ∧
    ((initSave snapshot).1
        = (initRecords snapshot).filter fun r => idOkTrim (rget r "id")) ∧
    ((initSave snapshot).2
        = ((initRecords snapshot).filter fun r => !(idOkTrim (rget r "id"))).map
            fun r => rpop r "id") ∧
    (snapshot.countP rowAllNa + (memSave snapshot).1.length
        + (memSave snapshot).2.length = snapshot.length) ∧
    ((memSave snapshot).1
        = (memRecords snapshot).filter fun r => idOkTruthy (rget r "id")) ∧
    ((memSave snapshot).2
        = ((memRecords snapshot).filter fun r => !(idOkTruthy (rget r "id"))).map
            fun r => rpop r "id") := by
  have hcount : snapshot.countP rowAllNa
      + snapshot.countP (fun r => !(rowAllNa r)) = snapshot.length := by
    have h := List.length_eq_countP_add_countP rowAllNa snapshot
    have he : (fun (a : Row) => decide ¬rowAllNa a = true)
        = fun r => !(rowAllNa r) := by
      funext a
      by_cases h0 : rowAllNa a = true <;> simp [h0]
    rw [he] at h
    omega
  have hinit : (initSave snapshot).1.length + (initSave snapshot).2.length
      = snapshot.countP fun r => !(rowAllNa r) := by
    rw [initSave, partitionRecords_length, initRecords, List.length_map,
      List.length_map, dropBlank_length]
  have hmem : (memSave snapshot).1.length + (memSave snapshot).2.length
      = snapshot.countP fun r => !(rowAllNa r) := by
    rw [memSave, partitionRecords_length, memRecords, List.length_map,
      List.length_map, dropBlank_length]
  exact ⟨by omega, partitionRecords_fst _ _, partitionRecords_snd _ _,
    by omega, partitionRecords_fst _ _, partitionRecords_snd _ _⟩

/-- C3 counterexample: a snapshot row whose non-identity columns are all
blank but which carries an identity survives `dropna(how="all")` (the drop
looks at every column, identity included) and lands in the updates batch —
the claim says it appears in neither batch. -/
theorem c3_counterexample :
    initSave [[("id", Value.str "abc123"), ("initiative_name", Value.na),
        ("region", Value.na), ("status", Value.na), ("lead_steward", Value.na),
        ("last_check_in", Value.na), ("next_check_in", Value.na),
        ("notes", Value.na), ("updated_at", Value.na)]]
      = ([[("id", Value.str "abc123"), ("initiative_name", Value.na),
        ("region", Value.na), ("status", Value.na), ("lead_steward", Value.na),
        ("last_check_in", Value.na), ("next_check_in", Value.na),
        ("notes", Value.na)]], []) := by
  decide

/-- C3 amended: the save logic drops exactly the snapshot rows whose cells
are blank across ALL columns — identity and read-only columns included —
and those rows reach neither batch; a row blank in every non-identity
column but carrying an identity (or an `updated_at` value) is kept and
partitioned.  Dropping the all-blank rows beforehand leaves the batches
unchanged, and the two batch sizes sum to the count of not-all-blank rows. -/
theorem c3_blank_rows_dropped (snapshot : List Row) :
    initSave (snapshot.filter fun r => !(rowAllNa r)) = initSave snapshot ∧
    memSave (snapshot.filter fun r => !(rowAllNa r)) = memSave snapshot ∧
    ((initSave snapshot).1.length + (initSave snapshot).2.length
        = snapshot.countP fun r => !(rowAllNa r)) ∧
    ((memSave snapshot).1.length + (memSave snapshot).2.length
        = snapshot.countP fun r => !(rowAllNa r)) := by
  refine ⟨?_, ?_, ?_, ?_⟩
  · rw [initSave, initSave, initRecords, initRecords,
      dropBlank_map_renameCols_filter]
  · rw [memSave, memSave, memRecords, memRecords,
      dropBlank_map_renameCols_filter]
  · rw [initSave, partitionRecords_length, initRecords, List.length_map,
      List.length_map, dropBlank_length]
  · rw [memSave, partitionRecords_length, memRecords, List.length_map,
      List.length_map, dropBlank_length]

/-- C6: in the save payload normalization of both pages that carry date
columns (initiatives and speakers), a date value becomes exactly its ISO
calendar-date string, the missing marker becomes the wire null, free text
passes through unchanged, and the calendar date 2025-03-01 serializes to
the string "2025-03-01". -/
theorem c6_wire_normalization :
    (∀ dt : CalDate, normValInit (Value.date dt) = Value.str dt.isoformat) ∧
    normValInit Value.na = Value.na ∧
    (∀ s : String, normValInit (Value.str s) = Value.str s) ∧
    (∀ dt : CalDate, normValSpeak (Value.date dt) = Value.str dt.isoformat) ∧
    normValSpeak Value.na = Value.na ∧
    (∀ s : String, normValSpeak (Value.str s) = Value.str s) ∧
    CalDate.isoformat ⟨2025, 3, 1⟩ = "2025-03-01" := by
  exact ⟨fun _ => rfl, rfl, fun _ => rfl, fun _ => rfl, rfl, fun _ => rfl,
    by decide⟩

/-- C9 counterexample: a store-unreachable error raised inside the load is
not recovered into the empty canonical table (there is no `try`/`except`
around the load and no warning anywhere): the error propagates. -/
theorem c9_counterexample :
    initLoadCycle (Except.error "connection refused")
      ≠ Except.ok ⟨initExpected, []⟩ :=
  fun h => Except.noConfusion h

/-- C9 amended: missing or empty credentials halt the page before any load;
a response with a null data payload is turned into the empty canonical
table silently (no warning exists in the code); a store error raised during
the load propagates uncaught and halts the page instead of being recovered. -/
theorem c9_load_error_modes :
    (∀ e : String, initLoadCycle (Except.error e) = Except.error e) ∧
    initLoadCycle (Except.ok none) = Except.ok ⟨initExpected, []⟩ ∧
    (∀ e : String, memLoadCycle (Except.error e) = Except.error e) ∧
    memLoadCycle (Except.ok none) = Except.ok ⟨memExpected, []⟩ ∧
    credsGateHalts none (some "key") = true ∧
    credsGateHalts (some "") (some "key") = true ∧
    credsGateHalts (some "url") none = true ∧
    credsGateHalts (some "url") (some "key") = false := by
  exact ⟨fun _ => rfl, congrArg Except.ok (by decide), fun _ => rfl,
    congrArg Except.ok (by decide), by decide, by decide, by decide, by decide⟩

/-- C1 counterexample: on the members page a record whose id is the
whitespace-only string " " is truthy for `if r.get("id"):`, so it lands in
the updates batch with its id retained — the claim says it goes to the
inserts batch with the id key removed, on every page. -/
theorem c1_counterexample :
    memSave [[("id", Value.str " "), ("name", Value.str "Ann"),
        ("status", Value.str "Active")]]
      = ([[("id", Value.str " "), ("name", Value.str "Ann"),
        ("status", Value.str "Active")]], []) := by
  decide

/-- C1 amended: the trimming identity test belongs to the initiatives page
only — there a present id that strips to non-empty sends the row to
updates, anything else (including a whitespace-only id) strips the id key
and sends the row to inserts.  The members and speakers pages test bare
Python truthiness instead, so an absent, `None`, or empty-string id goes to
inserts with the id key removed, while any non-empty string id — even
whitespace-only — goes to updates with the id retained. -/
theorem c1_save_partition (records : List Row) (r : Row) (hr : r ∈ records) :
    (idOkTrim (rget r "id") = true →
        r ∈ (partitionRecords idOkTrim records).1) ∧
    (idOkTrim (rget r "id") = false →
        rpop r "id" ∈ (partitionRecords idOkTrim records).2) ∧
    (idOkTruthy (rget r "id") = true →
        r ∈ (partitionRecords idOkTruthy records).1) ∧
    (idOkTruthy (rget r "id") = false →
        rpop r "id" ∈ (partitionRecords idOkTruthy records).2) ∧
    (∀ s : String, idOkTrim (some (Value.str s)) = true ↔ pyStrip s ≠ "") ∧
    (∀ s : String, idOkTruthy (some (Value.str s)) = true ↔ s ≠ "") ∧
    idOkTrim (some (Value.str " ")) = false ∧
    idOkTruthy (some (Value.str " ")) = true ∧
    idOkTrim none = false ∧ idOkTruthy none = false := by
  refine ⟨?_, ?_, ?_, ?_, ?_, ?_, by decide, by decide, rfl, rfl⟩
  · intro h
    rw [partitionRecords_fst, List.mem_filter]
    exact ⟨hr, h⟩
  · intro h
    rw [partitionRecords_snd, List.mem_map]
    exact ⟨r, List.mem_filter.mpr ⟨hr, by simp [h]⟩, rfl⟩
  · intro h
    rw [partitionRecords_fst, List.mem_filter]
    exact ⟨hr, h⟩
  · intro h
    rw [partitionRecords_snd, List.mem_map]
    exact ⟨r, List.mem_filter.mpr ⟨hr, by simp [h]⟩, rfl⟩
  · intro s
    simp only [idOkTrim, pyTruthy, strOfValue, Bool.and_eq_true,
      decide_eq_true_eq]
    constructor
    · exact fun h => h.2
    · intro h
      refine ⟨fun he => h ?_, h⟩
      rw [he]
      decide
  · intro s
    simp [idOkTruthy, pyTruthy]

/-- C1 witness: a concrete record with a real id is placed in the updates
batch by the initiatives partition. -/
theorem c1_save_partition_witness :
    [("id", Value.str "abc")]
      ∈ (partitionRecords idOkTrim [[("id", Value.str "abc")]]).1 :=
  (c1_save_partition [[("id", Value.str "abc")]] [("id", Value.str "abc")]
    (by decide)).1 (by decide)

/-- C7: every record of every update or insert batch, on all three pages,
carries only keys from the page's `allowed_cols` (the writable columns plus
the identity), and in particular never the read-only `updated_at`. -/
theorem c7_payload_columns (snapshot : List Row) (r : Row) :
    ((r ∈ (initSave snapshot).1 ∨ r ∈ (initSave snapshot).2) →
        ∀ kv ∈ r, kv.1 ∈ initAllowed ∧ kv.1 ≠ "updated_at") ∧
    ((r ∈ (memSave snapshot).1 ∨ r ∈ (memSave snapshot).2) →
        ∀ kv ∈ r, kv.1 ∈ memAllowed ∧ kv.1 ≠ "updated_at") ∧
    ((r ∈ (speakSave snapshot).1 ∨ r ∈ (speakSave snapshot).2) →
        ∀ kv ∈ r, kv.1 ∈ speakAllowed ∧ kv.1 ≠ "updated_at") := by
  refine ⟨?_, ?_, ?_⟩
  · intro hr kv hkv
    rw [initSave, initRecords] at hr
    have hin := partitionStage_keys idOkTrim initAllowed normValInit _ r hr kv hkv
    refine ⟨hin, fun he => ?_⟩
    rw [he] at hin
    exact absurd hin (by decide)
  · intro hr kv hkv
    rw [memSave, memRecords] at hr
    have hin := partitionStage_keys idOkTruthy memAllowed normValMem _ r hr kv hkv
    refine ⟨hin, fun he => ?_⟩
    rw [he] at hin
    exact absurd hin (by decide)
  · intro hr kv hkv
    rw [speakSave, speakRecords] at hr
    have hin := partitionStage_keys idOkTruthy speakAllowed normValSpeak _ r hr kv hkv
    refine ⟨hin, fun he => ?_⟩
    rw [he] at hin
    exact absurd hin (by decide)

/-- C7 witness: the key of the single cell of a concrete insert-batch record
is an allowed initiatives column and is not `updated_at`. -/
theorem c7_payload_columns_witness :
    "initiative_name" ∈ initAllowed ∧ "initiative_name" ≠ "updated_at" :=
  (c7_payload_columns [[("initiative_name", Value.str "Pilot")]]
      [("initiative_name", Value.str "Pilot")]).1
    (Or.inr (by decide)) ("initiative_name", Value.str "Pilot") (by decide)

/-- C5: the save handler operates on a copy, so the working table after any
save attempt — failed or not — is the table the user was editing; when an
error is shown (a store call raised) the cache is not cleared; and the
cache is cleared only when the upsert call (if any) and the insert call
(if any) both succeeded. -/
theorem c5_failure_preserves_state (edited : List Row) (st : StoreBehavior) :
    (initSaveHandler edited st).2 = edited ∧
    (Eff.errorShown ∈ (initSaveHandler edited st).1 →
        Eff.clearCache ∉ (initSaveHandler edited st).1) ∧
    (Eff.clearCache ∈ (initSaveHandler edited st).1 →
        ((initSave edited).1.isEmpty = true ∨ st.upsertOk = true) ∧
        ((initSave edited).2.isEmpty = true ∨ st.insertOk = true)) := by
  unfold initSaveHandler
  by_cases h1 : (initSave edited).1.isEmpty = true <;>
    by_cases h2 : st.upsertOk = true <;>
      by_cases h3 : (initSave edited).2.isEmpty = true <;>
        by_cases h4 : st.insertOk = true <;>
          simp [h1, h2, h3, h4]

/-- C5 witness: with a store whose insert call fails, a snapshot holding one
new row produces an error and the cache is not cleared. -/
theorem c5_failure_preserves_state_witness :
    Eff.clearCache
      ∉ (initSaveHandler [[("initiative_name", Value.str "Pilot")]]
          ⟨true, false⟩).1 :=
  (c5_failure_preserves_state [[("initiative_name", Value.str "Pilot")]]
      ⟨true, false⟩).2.1 (by decide)

theorem activeish_status_cases (r : Row) (h : activeish r = true) :
    rget r "status" = some (Value.str "Active")
      ∨ rget r "status" = some (Value.str "Proposed") := by
  unfold activeish at h
  cases hs : rget r "status" with
  | none => rw [hs] at h; cases h
  | some v =>
      rw [hs] at h
      cases v with
      | na => cases h
      | date dt => cases h
      | str s =>
          simp only [Bool.or_eq_true, beq_iff_eq] at h
          rcases h with h | h <;> rw [h]
          · exact Or.inl rfl
          · exact Or.inr rfl

/-- C10: the dashboard's Overdue and Due Soon row sets are disjoint
(Overdue needs `next_check_in` strictly before today, Due Soon needs it on
or after today and within the 14-day window), every row of either set has
status Active or Proposed and a present `next_check_in`, and rows with a
missing `next_check_in` belong to neither set. -/
theorem c10_overdue_due_soon (today : CalDate) (rows : List Row) (r : Row) :
    ¬(r ∈ overdueRows today rows ∧ r ∈ dueSoonRows today rows) ∧
    (r ∈ overdueRows today rows →
        (rget r "status" = some (Value.str "Active")
            ∨ rget r "status" = some (Value.str "Proposed"))
          ∧ (nextCheckIn r).isSome = true) ∧
    (r ∈ dueSoonRows today rows →
        (rget r "status" = some (Value.str "Active")
            ∨ rget r "status" = some (Value.str "Proposed"))
          ∧ (nextCheckIn r).isSome = true) ∧
    (nextCheckIn r = none →
        r ∉ overdueRows today rows ∧ r ∉ dueSoonRows today rows) := by
  refine ⟨?_, ?_, ?_, ?_⟩
  · rintro ⟨ho, hd⟩
    rw [overdueRows, List.mem_filter] at ho
    rw [dueSoonRows, List.mem_filter] at hd
    have po := ho.2
    have pd := hd.2
    cases hn : nextCheckIn r with
    | none => rw [hn] at po; simp at po
    | some dt =>
        rw [hn] at po pd
        simp only [Bool.and_eq_true] at po pd
        rw [po.2] at pd
        simp at pd
  · intro ho
    rw [overdueRows, List.mem_filter] at ho
    have po := ho.2
    cases hn : nextCheckIn r with
    | none => rw [hn] at po; simp at po
    | some dt =>
        rw [hn] at po
        simp only [Bool.and_eq_true] at po
        exact ⟨activeish_status_cases r po.1, rfl⟩
  · intro hd
    rw [dueSoonRows, List.mem_filter] at hd
    have pd := hd.2
    cases hn : nextCheckIn r with
    | none => rw [hn] at pd; simp at pd
    | some dt =>
        rw [hn] at pd
        simp only [Bool.and_eq_true] at pd
        exact ⟨activeish_status_cases r pd.1, rfl⟩
  · intro hn
    constructor
    · intro ho
      rw [overdueRows, List.mem_filter, hn] at ho
      simpa using ho.2
    · intro hd
      rw [dueSoonRows, List.mem_filter, hn] at hd
      simpa using hd.2

/-- C10 witness: a concrete overdue row (status Active, check-in before
today) indeed has status Active-or-Proposed and a present `next_check_in`. -/
theorem c10_overdue_due_soon_witness :
    (rget [("status", Value.str "Active"),
          ("next_check_in", Value.date ⟨2025, 1, 1⟩)] "status"
        = some (Value.str "Active")
      ∨ rget [("status", Value.str "Active"),
          ("next_check_in", Value.date ⟨2025, 1, 1⟩)] "status"
        = some (Value.str "Proposed"))
    ∧ (nextCheckIn [("status", Value.str "Active"),
        ("next_check_in", Value.date ⟨2025, 1, 1⟩)]).isSome = true :=
  (c10_overdue_due_soon ⟨2025, 6, 1⟩
      [[("status", Value.str "Active"),
        ("next_check_in", Value.date ⟨2025, 1, 1⟩)]]
      [("status", Value.str "Active"),
        ("next_check_in", Value.date ⟨2025, 1, 1⟩)]).2.1 (by decide)

/-- C4 counterexample: a store row with an extra column leaves the canonical
table with that column first and so with neither exactly the declared
columns nor their declared order, and a declared text column absent from
the store is filled with the null marker, not the empty string. -/
theorem c4_counterexample :
    (initCanonical (some [[("zzz", Value.str "x"), ("id", Value.str "a")]])).cols
        ≠ initExpected ∧
    rget ((initCanonical (some [[("id", Value.str "a")]])).rows.getD 0 [])
        "notes" = some Value.na ∧
    rget ((initCanonical (some [[("id", Value.str "a")]])).rows.getD 0 [])
        "notes" ≠ some (Value.str "") := by
  refine ⟨by decide, by decide, by decide⟩

/-- C4 amended: after any load cycle every schema-declared column is present
on the canonical table (and on every row) — missing columns are appended
and filled with the null marker — and a response with no rows yields a
table with exactly the declared columns in declared order; but non-empty
responses keep extra store columns, append late-filled columns after the
fetched ones, and fill with null rather than per-type defaults. -/
theorem c4_declared_columns_present (data : Option (List Row)) :
    (∀ c ∈ initExpected, c ∈ (initCanonical data).cols) ∧
    (∀ r ∈ (initCanonical data).rows, ∀ c ∈ initExpected,
        (rget r c).isSome = true) ∧
    (∀ c ∈ speakExpected, c ∈ (speakCanonical data).cols) ∧
    (∀ r ∈ (speakCanonical data).rows, ∀ c ∈ speakExpected,
        (rget r c).isSome = true) ∧
    (data.getD [] = [] →
        (initCanonical data).cols = initExpected ∧
        (speakCanonical data).cols = speakExpected) := by
  have hinit : frameRowsKeyed (loadInitiativesFrame data) :=
    coerceDateCol_keyed _ _ (coerceDateCol_keyed _ _
      (frameOfRecords_keyed (data.getD [])))
  have hspeak : frameRowsKeyed (loadSpeakersFrame data) :=
    coerceDateCol_keyed _ _ (frameOfRecords_keyed (data.getD []))
  refine ⟨?_, ?_, ?_, ?_, ?_⟩
  · intro c hc
    rw [initCanonical]
    split
    · exact hc
    · exact fillExpected_cols_mem initExpected _ c hc
  · intro r hr c hc
    rw [initCanonical] at hr
    split at hr
    · cases hr
    · exact fillExpected_keyed initExpected _ hinit r hr c
        (fillExpected_cols_mem initExpected _ c hc)
  · intro c hc
    rw [speakCanonical]
    split
    · exact hc
    · exact fillExpected_cols_mem speakExpected _ c hc
  · intro r hr c hc
    rw [speakCanonical] at hr
    split at hr
    · cases hr
    · exact fillExpected_keyed speakExpected _ hspeak r hr c
        (fillExpected_cols_mem speakExpected _ c hc)
  · intro h
    cases data with
    | none => exact ⟨by decide, by decide⟩
    | some l =>
        have hl : l = [] := by simpa using h
        subst hl
        exact ⟨by decide, by decide⟩

/-- C4 witness: with a store response of one bare row, the declared column
`notes` is present in the canonical initiatives table. -/
theorem c4_declared_columns_present_witness :
    "notes" ∈ (initCanonical (some [[("id", Value.str "a")]])).cols :=
  (c4_declared_columns_present (some [[("id", Value.str "a")]])).1
    "notes" (by decide)

/-- C8: re-attaching the stored `row_ids` by index label gives every editor
row either its own original identity (its label, when below the original
row count) or the missing marker (fresh labels of added rows lie at or
beyond the original count, outside the Series index), and — labels being
distinct — the number of rows carrying a present identity never exceeds
the number of identities captured at initialization. -/
theorem c8_identity_monotone (rowIds : List Value) (ed : EditedRows)
    (hnd : (ed.map Prod.fst).Nodup) :
    (∀ r ∈ reattachIds rowIds ed,
        ∃ p ∈ ed, r = ("id", rowIds.getD p.1 Value.na) :: p.2) ∧
    (∀ i : Nat, rowIds.length ≤ i → rowIds.getD i Value.na = Value.na) ∧
    ((reattachIds rowIds ed).countP idPresent
        ≤ rowIds.countP fun v => !(isNa v)) := by
  refine ⟨?_, ?_, ?_⟩
  · intro r hr
    rw [reattachIds, List.mem_map] at hr
    obtain ⟨p, hp, he⟩ := hr
    exact ⟨p, hp, he.symm⟩
  · intro i hi
    exact List.getD_eq_default _ _ hi
  · have h1 : (reattachIds rowIds ed).countP idPresent
        = (ed.map Prod.fst).countP fun l => !(isNa (rowIds.getD l Value.na)) := by
      rw [reattachIds, List.countP_map, List.countP_map]
      apply List.countP_congr
      intro p _
      have hb : idPresent (("id", rowIds.getD p.1 Value.na) :: p.2)
          = !(isNa (rowIds.getD p.1 Value.na)) := by
        unfold idPresent
        rw [rget_cons_hit]
      simp only [Function.comp_apply]
      rw [hb]
    rw [h1, List.countP_eq_length_filter]
    have hsub : ((ed.map Prod.fst).filter
          fun l => !(isNa (rowIds.getD l Value.na)))
        ⊆ (List.range rowIds.length).filter
            fun l => !(isNa (rowIds.getD l Value.na)) := by
      intro l hl
      rw [List.mem_filter] at hl ⊢
      refine ⟨List.mem_range.mpr ?_, hl.2⟩
      by_contra hge
      have hd : rowIds.getD l Value.na = Value.na :=
        List.getD_eq_default _ _ (Nat.le_of_not_lt hge)
      have := hl.2
      rw [hd] at this
      simp [isNa] at this
    calc ((ed.map Prod.fst).filter
            fun l => !(isNa (rowIds.getD l Value.na))).length
        ≤ ((List.range rowIds.length).filter
            fun l => !(isNa (rowIds.getD l Value.na))).length :=
          nodup_length_le_of_subset (hnd.filter _) hsub
      _ = (List.range rowIds.length).countP
            fun l => !(isNa (rowIds.getD l Value.na)) :=
          (List.countP_eq_length_filter _ _).symm
      _ = rowIds.countP fun v => !(isNa v) :=
          countP_getD_range (fun v => !(isNa v)) rowIds

/-- C8 witness: two identities captured at initialization, one surviving row
(label 0) and one row added in the editor (label 7): the re-attached table
carries at most the original number of present identities. -/
theorem c8_identity_monotone_witness :
    (reattachIds [Value.str "a", Value.na]
        [(0, [("name", Value.str "x")]), (7, [("name", Value.str "y")])]).countP
        idPresent
      ≤ [Value.str "a", Value.na].countP fun v => !(isNa v) :=
  (c8_identity_monotone [Value.str "a", Value.na]
    [(0, [("name", Value.str "x")]), (7, [("name", Value.str "y")])]
    (by decide)).2.2

end StjRegistry
